import Mathlib

/-!
Verification development for the p2p-frontend file-transfer page
(`src/app/page.js` and its revision in `src/unnamed/part_000`).

The page is a React client component.  We shallowly embed the parts of it
that the specification talks about:

* `isValidToken` — token shape validation (16 hex chars);
* the sender's chunking loop `sendFile` / `sendFiles` (meta frame followed
  by 64 KiB binary frames, flow control, progress reporting);
* the receiver's `onmessage` / `storeChunk` logic (chunk buffering, byte
  counting, finalization when the counter reaches the declared size);
* the `signal` socket handler with its ICE-candidate queue;
* the `disconnect` handler and the 5-minute waiting watchdog, together
  with `resetState` / `cleanupRTC` / `joinSession`.

React semantics matter for faithfulness: a `useState` value read inside a
callback is the value captured at the render in which the callback was
created, not the live value.  Where the source reads such a captured value
(the `status` read in the `disconnect` handler, the `currentFileIndex`
read in `sendFile`) the embedding threads the captured value explicitly.
Bytes are modelled as `Nat`, byte arrays as `List Nat`, JS numbers used in
progress percentages as `ℚ`.
-/

/-- The status values of the page: `useState("idle")`, one of
`idle | waiting | connected | transferring | completed | error`. -/
inductive Status where
  | idle
  | waiting
  | connected
  | transferring
  | completed
  | error
deriving DecidableEq, Repr

/-- A JavaScript value as far as `isValidToken` can observe it:
a string or one of the non-string shapes (`typeof token !== "string"`). -/
inductive JSValue where
  | str (s : String)
  | number (q : ℚ)
  | boolean (b : Bool)
  | null
  | undefined
deriving DecidableEq, Repr

/-- One character class test of the regex `[A-Fa-f0-9]`. -/
def isHexChar (c : Char) : Bool :=
  ('A' ≤ c && c ≤ 'F') || ('a' ≤ c && c ≤ 'f') || ('0' ≤ c && c ≤ '9')

/-- `/^[A-Fa-f0-9]+$/.test s`: at least one character, all in the class. -/
def hexPlusTest (s : String) : Bool :=
  !s.data.isEmpty && s.data.all isHexChar

/--
`isValidToken` from the source:
```js
function isValidToken(token) {
  if (typeof token !== "string") return false;
  if (token.length !== 16) return false;
  return /^[A-Fa-f0-9]+$/.test(token);
}
```
-/
def isValidToken : JSValue → Bool
  | .str s => if s.length ≠ 16 then false else hexPlusTest s
  | _ => false

/-- `CHUNK_SIZE = 64 * 1024` (64 KiB). -/
def CHUNK_SIZE : Nat := 64 * 1024

/--
The sender's chunking loop, as a pure function on the file's bytes:
```js
let offset = 0;
while (offset < file.size) {
  const chunk = file.slice(offset, offset + CHUNK_SIZE);
  ...
  offset += arrayBuffer.byteLength;
}
```
`file.slice(offset, offset + c)` is `take c` of what remains.  The
`c = 0` guard is unreachable in the source (the constant `CHUNK_SIZE` is
positive) and is present only to make the recursion total.
-/
def chunks (c : Nat) (data : List Nat) : List (List Nat) :=
  if h : data.length = 0 then []
  else if hc : c = 0 then []
  else
    have : data.length - c < data.length :=
      Nat.sub_lt (Nat.pos_of_ne_zero h) (Nat.pos_of_ne_zero hc)
    data.take c :: chunks c (data.drop c)
termination_by data.length
decreasing_by simpa [List.length_drop] using this

/-- A file as the sender sees it: `file.name`, `file.type` and the bytes
returned by `file.slice(...).arrayBuffer()`. `file.size = data.length`. -/
structure JSFile where
  name : String
  mime : String
  data : List Nat
deriving DecidableEq, Repr

def JSFile.size (f : JSFile) : Nat := f.data.length

/-- The meta object sent as a text frame:
`{ type: "meta", name, size, mime, chunkSize }`. -/
structure FileMeta where
  name : String
  size : Nat
  mime : String
  chunkSize : Nat
deriving DecidableEq, Repr

/-- A data-channel frame: a text frame carrying a meta object, or a
binary frame carrying raw bytes. -/
inductive Frame where
  | metaFrame (m : FileMeta)
  | binary (bytes : List Nat)
deriving DecidableEq, Repr

/-- The meta frame `sendFile` emits for a file. -/
def metaOf (f : JSFile) : FileMeta :=
  { name := f.name, size := f.size, mime := f.mime, chunkSize := CHUNK_SIZE }

/-- The frames `sendFile` emits for one file over an open channel:
one meta text frame, then the chunking loop's binary frames. -/
def sendFileFrames (c : Nat) (f : JSFile) : List Frame :=
  Frame.metaFrame (metaOf f) :: (chunks c f.data).map Frame.binary

/-- The frames the `sendFiles` loop emits for the selected files, in order. -/
def sendFramesAll (c : Nat) (files : List JSFile) : List Frame :=
  (files.map (sendFileFrames c)).flatten

/-- A finalized (downloaded) file on the receiving side: the name and MIME
given to the anchor/Blob, and the assembled bytes. -/
structure CompletedFile where
  name : String
  mime : String
  data : List Nat
deriving DecidableEq, Repr

/-- `meta.name || "download"`. -/
def resolvedName (m : FileMeta) : String :=
  if m.name = "" then "download" else m.name

/-- `meta.mime || "application/octet-stream"`. -/
def resolvedMime (m : FileMeta) : String :=
  if m.mime = "" then "application/octet-stream" else m.mime

/-- The receiver-side state: the refs `recvChunksRef`, `recvMetaRef`,
`recvBytesRef`, the `recvProgress` and `status` states, plus the
observable outputs — the finalized files and the socket events emitted. -/
structure RecvState where
  recvChunks : List (List Nat)
  recvMeta : Option FileMeta
  recvBytes : Nat
  recvProgress : ℚ
  status : Status
  completed : List CompletedFile
  emitted : List String
deriving DecidableEq, Repr

/-- `recvMetaRef.current?.size || 1` (a declared size of `0` is falsy). -/
def progressTotal (meta : Option FileMeta) : Nat :=
  match meta with
  | some m => if m.size = 0 then 1 else m.size
  | none => 1

/--
`storeChunk(arrayBuffer)` from the source:
```js
recvChunksRef.current.push(new Uint8Array(arrayBuffer));
recvBytesRef.current += arrayBuffer.byteLength;
const total = recvMetaRef.current?.size || 1;
setRecvProgress((recvBytesRef.current / total) * 100);
if (recvMetaRef.current && recvBytesRef.current >= recvMetaRef.current.size) {
  const blob = new Blob(recvChunksRef.current, {...});
  ... a.download = recvMetaRef.current.name || "download"; a.click(); ...
  setStatus("completed");
  socketRef.current?.emit("session-complete", {...});
}
```
-/
def storeChunk (st : RecvState) (bytes : List Nat) : RecvState :=
  let recvChunks := st.recvChunks ++ [bytes]
  let recvBytes := st.recvBytes + bytes.length
  let recvProgress : ℚ := (recvBytes * 100 : ℚ) / (progressTotal st.recvMeta)
  match st.recvMeta with
  | some m =>
      if m.size ≤ recvBytes then
        { st with
            recvChunks := recvChunks
            recvBytes := recvBytes
            recvProgress := recvProgress
            status := Status.completed
            completed := st.completed ++
              [{ name := resolvedName m, mime := resolvedMime m,
                 data := recvChunks.flatten }]
            emitted := st.emitted ++ ["session-complete"] }
      else
        { st with
            recvChunks := recvChunks
            recvBytes := recvBytes
            recvProgress := recvProgress }
  | none =>
      { st with
          recvChunks := recvChunks
          recvBytes := recvBytes
          recvProgress := recvProgress }

/--
The data channel's `onmessage` handler, per frame.  A text frame that
parses to `{type:"meta", ...}` with a truthy `name` (nonempty string) and
non-null `size` starts a new reception context; a binary frame goes to
`storeChunk`.
-/
def recvFrame (st : RecvState) (f : Frame) : RecvState :=
  match f with
  | .metaFrame m =>
      if m.name ≠ "" then
        { st with
            recvMeta := some m
            recvChunks := []
            recvBytes := 0
            recvProgress := 0
            status := Status.transferring }
      else st
  | .binary b => storeChunk st b

/-- Processing an ordered sequence of frames (the channel is ordered and
reliable, so arrival order equals send order). -/
def recvRun (st : RecvState) (fs : List Frame) : RecvState :=
  fs.foldl recvFrame st

/-- The receiver's state when the channel opens: empty refs, no meta. -/
def initRecv : RecvState :=
  { recvChunks := []
    recvMeta := none
    recvBytes := 0
    recvProgress := 0
    status := Status.connected
    completed := []
    emitted := [] }

/-! ## Signal handler and ICE candidate queue (`wireSocketEvents`) -/

/-- An opaque session description (SDP) payload. -/
structure SDP where
  id : Nat
deriving DecidableEq, Repr

/-- An opaque ICE candidate payload. -/
structure Candidate where
  id : Nat
deriving DecidableEq, Repr

/-- An inbound `signal` message: `{ type: "offer" | "answer" | "ice", data }`. -/
inductive SignalMsg where
  | offer (sdp : SDP)
  | answer (sdp : SDP)
  | ice (cand : Candidate)
deriving DecidableEq, Repr

/-- The peer-connection and queue state the `signal` handler manipulates:
`pc.remoteDescription`, the candidates passed to `pc.addIceCandidate` (in
call order), `iceCandidateQueueRef.current`, and the `answer` signals
emitted back.  The embedding covers the success path of the external
capabilities (`setRemoteDescription` / `addIceCandidate` /
`createAnswer` succeed). -/
structure SignalState where
  remoteDescription : Option SDP
  applied : List Candidate
  iceCandidateQueue : List Candidate
  answersSent : List SDP
deriving DecidableEq, Repr

/--
The `signal` handler of `wireSocketEvents` (revision with the queue):
```js
if (type === "offer") {
  await pc.setRemoteDescription(data);
  for (const candidate of iceCandidateQueueRef.current) {
    try { await pc.addIceCandidate(candidate); } catch {}
  }
  iceCandidateQueueRef.current = [];
  const answer = await pc.createAnswer(); ...
} else if (type === "answer") {
  await pc.setRemoteDescription(data);
  for (const candidate of iceCandidateQueueRef.current) { ... }
  iceCandidateQueueRef.current = [];
} else if (type === "ice") {
  if (pc.remoteDescription) { try { await pc.addIceCandidate(data); } ... }
  else { iceCandidateQueueRef.current.push(data); }
}
```
-/
def onSignal (st : SignalState) (msg : SignalMsg) : SignalState :=
  match msg with
  | .offer sdp =>
      { st with
          remoteDescription := some sdp
          applied := st.applied ++ st.iceCandidateQueue
          iceCandidateQueue := []
          answersSent := st.answersSent ++ [sdp] }
  | .answer sdp =>
      { st with
          remoteDescription := some sdp
          applied := st.applied ++ st.iceCandidateQueue
          iceCandidateQueue := [] }
  | .ice cand =>
      match st.remoteDescription with
      | some _ => { st with applied := st.applied ++ [cand] }
      | none => { st with iceCandidateQueue := st.iceCandidateQueue ++ [cand] }

/-- Processing a sequence of inbound signal messages in arrival order. -/
def signalRun (st : SignalState) (msgs : List SignalMsg) : SignalState :=
  msgs.foldl onSignal st

/-- The state right after `startWebRTC` creates the peer connection:
no remote description, empty queue, nothing applied. -/
def initSignal : SignalState :=
  { remoteDescription := none
    applied := []
    iceCandidateQueue := []
    answersSent := [] }

/-- The ICE candidates of a message sequence, in arrival order. -/
def iceOf (msgs : List SignalMsg) : List Candidate :=
  msgs.foldr (fun m acc => match m with | .ice c => c :: acc | _ => acc) []

/-- Whether the sequence contains an offer or answer (a remote
description event). -/
def hasDescMsg (msgs : List SignalMsg) : Bool :=
  msgs.any (fun m => match m with | .ice _ => false | _ => true)

/-! ## StatusModel: disconnect handler and waiting watchdog -/

/--
The relay `disconnect` handler.  `capturedStatus` is the value of the
`status` state variable at the render in which `wireSocketEvents` ran —
that is what the handler's closure reads, not the live status:
```js
s.on("disconnect", (reason) => {
  if (reason !== "io client disconnect") {
    setError("Disconnected from signaling server.");
    if (status !== "completed") setStatus("error");
  }
});
```
Returns the status after the handler runs, given the live status
`current`.
-/
def disconnectHandler (capturedStatus : Status) (current : Status)
    (reason : String) : Status :=
  if reason = "io client disconnect" then current
  else if capturedStatus = Status.completed then current
  else Status.error

/-! ## Session state: `cleanupRTC`, `resetState`, `joinSession`, watchdog -/

/-- A message emitted on the signaling socket. -/
inductive SocketEmit where
  | sessionCancel (token : String)
  | register (token : String)
deriving DecidableEq, Repr

/-- The page-level state touched by `resetState`, `joinSession` and the
waiting watchdog: the React state variables, the refs, and whether the
socket / peer connection / data channel currently exist. -/
structure AppState where
  status : Status
  errorMsg : String
  role : Option String
  lastAction : String
  sendProgress : ℚ
  recvProgress : ℚ
  expiresAt : Option Nat
  selectedFiles : List JSFile
  currentFileIndex : Nat
  recvChunks : List (List Nat)
  recvMeta : Option FileMeta
  recvBytes : Nat
  sessionToken : String
  socketExists : Bool
  pcAttached : Bool
  dcAttached : Bool
  iceCandidateQueue : List Candidate
deriving DecidableEq, Repr

/-- `cleanupRTC`: detaches all handlers, closes and releases the data
channel and peer connection, clears the ICE candidate queue. -/
def cleanupRTC (st : AppState) : AppState :=
  { st with pcAttached := false, dcAttached := false, iceCandidateQueue := [] }

/--
`resetState` from the source: resets every state variable and ref, emits
`session-cancel` on the existing socket (if any), then `cleanupRTC`.
Returns the new state and the socket messages emitted.
-/
def resetState (st : AppState) : AppState × List SocketEmit :=
  let st1 := { st with
    status := Status.idle
    errorMsg := ""
    role := none
    sendProgress := 0
    recvProgress := 0
    expiresAt := none
    lastAction := "idle"
    selectedFiles := []
    currentFileIndex := 0
    recvChunks := []
    recvMeta := none
    recvBytes := 0 }
  let emits := if st.socketExists then [SocketEmit.sessionCancel st.sessionToken] else []
  (cleanupRTC st1, emits)

/-- `value.trim()` of the token input: strips leading and trailing
whitespace from both ends. -/
def jsTrim (s : String) : String :=
  ⟨((s.data.dropWhile Char.isWhitespace).reverse.dropWhile
      Char.isWhitespace).reverse⟩

/--
`joinSession` from the source, as a function of the current state and the
(optional) raw content of the token input field.  Returns the new state,
the socket messages emitted during the call, and whether `ensureSocket`
was reached (a connection attempt to the relay):
```js
resetState();
setLastAction("join");
const token = tokenInputRef.current?.value?.trim();
if (!token || !isValidToken(token)) {
  setError("Invalid token."); setStatus("error"); return;
}
setSessionToken(token); ...; setStatus("waiting");
const s = ensureSocket(); ...; wireSocketEvents(s);
s.emit("register", { token });
```
-/
def joinSession (st : AppState) (input : Option String) :
    AppState × List SocketEmit × Bool :=
  let (st1, emits1) := resetState st
  let st2 := { st1 with lastAction := "join" }
  let token := input.map jsTrim
  match token with
  | none => ({ st2 with errorMsg := "Invalid token.", status := Status.error },
             emits1, false)
  | some t =>
      if t = "" ∨ isValidToken (JSValue.str t) = false then
        ({ st2 with errorMsg := "Invalid token.", status := Status.error },
         emits1, false)
      else
        ({ st2 with sessionToken := t, status := Status.waiting,
                    socketExists := true },
         emits1 ++ [SocketEmit.register t], true)

/-- The first half of the waiting watchdog's timeout callback:
`setError("Connection timeout: ..."); setStatus("error")`. -/
def timeoutError (st : AppState) : AppState :=
  { st with
      errorMsg := "Connection timeout: peer did not connect in time."
      status := Status.error }

/--
The waiting watchdog (the `useEffect` with `[status, resetState]` deps):
a timer armed when the status becomes `waiting` and cleared on any status
change, so it fires only if the status stayed `waiting` for the full
5 minutes.  On firing it re-checks the (captured, still `waiting`) status
and then runs `setError(...); setStatus("error"); resetState();`.
-/
def waitingTimeoutFire (st : AppState) : AppState × List SocketEmit :=
  if st.status = Status.waiting then resetState (timeoutError st)
  else (st, [])

/-! ## Flow control in `sendFile` -/

/--
One chunk send under the flow-control discipline of `sendFile`, with
`T = dc.bufferedAmountLowThreshold`.  From a buffered amount of at most
`b` (the transport drains concurrently, so by send time the buffered
amount is some `b1 ≤ b`):
* `noWait`: if `b1 ≤ T` the guard `bufferedAmount > threshold` is false
  and the chunk of length `l` is sent at once;
* `waited`: if `b1 > T` the sender suspends on a one-shot
  `bufferedamountlow` listener; the event fires only once the buffered
  amount has dropped to some `b2 ≤ T`, and only then is the chunk sent.
The result is the buffered amount right after `dc.send(arrayBuffer)`.
-/
inductive SendStep (T : Nat) : Nat → Nat → Nat → Prop where
  | noWait (b b1 l : Nat) : b1 ≤ b → b1 ≤ T → SendStep T b l (b1 + l)
  | waited (b b1 b2 l : Nat) : b1 ≤ b → T < b1 → b2 ≤ T → SendStep T b l (b2 + l)

/-- A run of the chunk loop: sends the chunk lengths `ls` in order from
initial buffered amount `b`, observing buffered amount `bs` after each
send. -/
inductive SendRun (T : Nat) : Nat → List Nat → List Nat → Prop where
  | nil (b : Nat) : SendRun T b [] []
  | cons (b l b' : Nat) (ls bs : List Nat) :
      SendStep T b l b' → SendRun T b' ls bs → SendRun T b (l :: ls) (b' :: bs)

/-- The low-water threshold set at channel binding:
`dc.bufferedAmountLowThreshold = CHUNK_SIZE * 4`. -/
def bufferedAmountLowThreshold : Nat := CHUNK_SIZE * 4

/-! ## Send progress reporting -/

/-- Sum of the sizes of a file list:
`files.reduce((sum, f) => sum + f.size, 0)`. -/
def sumSizes (files : List JSFile) : Nat := (files.map JSFile.size).sum

/-- Partial sums of a list starting from `acc`: the successive values of
`offset` after each `offset += arrayBuffer.byteLength`. -/
def partialSums : List Nat → Nat → List Nat
  | [], _ => []
  | l :: ls, acc => (acc + l) :: partialSums ls (acc + l)

/--
The progress values `sendFile` reports for one file, one after each chunk
send:
```js
const totalBytes = selectedFiles.reduce((sum, f) => sum + f.size, 0);
const sentBytes = selectedFiles.slice(0, currentFileIndex)
  .reduce((sum, f) => sum + f.size, 0) + offset;
setSendProgress((sentBytes / totalBytes) * 100);
```
`capturedIndex` is the value of `currentFileIndex` captured by the render
closure in which the `sendFiles` loop runs; React state updates made
during the loop (`setCurrentFileIndex(...)`) do not change it.
-/
def fileProgressReports (files : List JSFile) (capturedIndex : Nat)
    (f : JSFile) : List ℚ :=
  let total : ℚ := (sumSizes files : Nat)
  let before : Nat := sumSizes (files.take capturedIndex)
  (partialSums ((chunks CHUNK_SIZE f.data).map List.length) 0).map
    (fun off => ((before + off : Nat) * 100 : ℚ) / total)

/-- The per-file progress report lists produced by the `sendFiles` loop.
Every iteration reads the same captured `currentFileIndex`. -/
def sendFilesProgressReports (files : List JSFile) (capturedIndex : Nat) :
    List (List ℚ) :=
  files.map (fileProgressReports files capturedIndex)

/-- Modelled from the spec: the progress the claim prescribes — for the
file at position `i`, cumulative bytes are the sizes of all fully sent
earlier files (`files.take i`) plus the current offset. -/
def claimedProgressReports (files : List JSFile) : List (List ℚ) :=
  files.enum.map (fun p => fileProgressReports files p.1 p.2)

/-! ## Lemmas about the chunking loop -/

theorem chunks_nil (c : Nat) : chunks c [] = [] := by
  rw [chunks]; simp

theorem chunks_cons (c : Nat) (data : List Nat) (hd : data ≠ []) (hc : c ≠ 0) :
    chunks c data = data.take c :: chunks c (data.drop c) := by
  rw [chunks]
  simp [List.length_eq_zero, hd, hc]

/-- Concatenating the chunks recovers the file's bytes exactly. -/
theorem chunks_flatten (c : Nat) (hc : c ≠ 0) (data : List Nat) :
    (chunks c data).flatten = data := by
  induction data using chunks.induct c with
  | case1 d h => simp [List.length_eq_zero] at h; simp [h, chunks_nil]
  | case2 d h hc' => exact absurd hc' hc
  | case3 d h hc' _ ih =>
    have hd : d ≠ [] := by simpa [List.length_eq_zero] using h
    rw [chunks_cons c d hd hc]
    simp [ih, List.take_append_drop]

/-- Every chunk is nonempty and no longer than the chunk size. -/
theorem chunks_mem_len (c : Nat) (hc : c ≠ 0) (data : List Nat) :
    ∀ b ∈ chunks c data, 0 < b.length ∧ b.length ≤ c := by
  induction data using chunks.induct c with
  | case1 d h =>
    intro b hb
    simp [List.length_eq_zero] at h
    simp [h, chunks_nil] at hb
  | case2 d h hc' => exact absurd hc' hc
  | case3 d h hc' _ ih =>
    intro b hb
    have hd : d ≠ [] := by simpa [List.length_eq_zero] using h
    rw [chunks_cons c d hd hc, List.mem_cons] at hb
    rcases hb with hb | hb
    · subst hb
      constructor
      · simpa [List.length_take, Nat.lt_min] using
          ⟨Nat.pos_of_ne_zero hc, Nat.pos_of_ne_zero h⟩
      · simp [List.length_take]
    · exact ih b hb

/-- The number of chunks is `⌈|data| / c⌉`. -/
theorem chunks_length (c : Nat) (hc : c ≠ 0) (data : List Nat) :
    (chunks c data).length = (data.length + c - 1) / c := by
  induction data using chunks.induct c with
  | case1 d h =>
    simp [List.length_eq_zero] at h
    subst h
    simp [chunks_nil]
    have : (c - 1) / c = 0 := Nat.div_eq_of_lt (by omega)
    omega
  | case2 d h hc' => exact absurd hc' hc
  | case3 d h hc' _ ih =>
    have hd : d ≠ [] := by simpa [List.length_eq_zero] using h
    rw [chunks_cons c d hd hc]
    simp only [List.length_cons, ih, List.length_drop]
    have hcpos : 0 < c := Nat.pos_of_ne_zero hc
    have hdpos : 0 < d.length := Nat.pos_of_ne_zero h
    rcases Nat.lt_or_ge d.length c with hlt | hge
    · have he : d.length + c - 1 = (d.length - 1) + c := by omega
      have h1 : (d.length + c - 1) / c = 1 := by
        rw [he, Nat.add_div_right _ hcpos, Nat.div_eq_of_lt (by omega)]
      have h0 : (d.length - c + c - 1) / c = 0 := by
        apply Nat.div_eq_of_lt; omega
      omega
    · have : d.length - c + c - 1 + c = d.length + c - 1 := by omega
      have hsucc : (d.length + c - 1) / c = (d.length - c + c - 1) / c + 1 := by
        rw [← this, Nat.add_div_right _ hcpos]
      omega

/-- All chunks except possibly the last have length exactly `c`. -/
theorem chunks_dropLast_len (c : Nat) (hc : c ≠ 0) (data : List Nat) :
    ∀ b ∈ (chunks c data).dropLast, b.length = c := by
  induction data using chunks.induct c with
  | case1 d h =>
    intro b hb
    simp [List.length_eq_zero] at h
    simp [h, chunks_nil] at hb
  | case2 d h hc' => exact absurd hc' hc
  | case3 d h hc' _ ih =>
    intro b hb
    have hd : d ≠ [] := by simpa [List.length_eq_zero] using h
    rw [chunks_cons c d hd hc] at hb
    rcases hrest : chunks c (d.drop c) with _ | ⟨r, rs⟩ <;> rw [hrest] at hb
    · simp at hb
    · rw [List.dropLast_cons₂, List.mem_cons] at hb
      rcases hb with hb | hb
      · subst hb
        have hne : d.drop c ≠ [] := by
          intro hnil
          rw [hnil, chunks_nil] at hrest
          exact List.noConfusion hrest
        have hlt : c < d.length := by
          by_contra hle
          exact hne (List.drop_eq_nil_of_le (by omega))
        simp [List.length_take]
        omega
      · exact ih b (by rw [hrest]; exact hb)

/-! ## C5: token validation -/

/-- C5: `isValidToken` returns true exactly for 16-character strings of
hex digits (`0-9`, `a-f`, `A-F`), and false for every non-string value,
every string of another length, and every 16-character string with a
non-hex character; in particular `"abc"` and `"0123456789abcdeg"` are
rejected and `"0123456789abcdef"` is accepted. -/
theorem isValidToken_spec :
    (∀ s : String, isValidToken (JSValue.str s) = true ↔
        (s.length = 16 ∧ s.data.all isHexChar = true)) ∧
    (∀ q, isValidToken (JSValue.number q) = false) ∧
    isValidToken JSValue.null = false ∧
    isValidToken JSValue.undefined = false ∧
    (∀ b, isValidToken (JSValue.boolean b) = false) ∧
    isValidToken (JSValue.str "abc") = false ∧
    isValidToken (JSValue.str "0123456789abcdef") = true ∧
    isValidToken (JSValue.str "0123456789abcdeg") = false := by
  refine ⟨?_, fun q => rfl, rfl, rfl, fun b => rfl, by decide, by decide, by decide⟩
  intro s
  by_cases h16 : s.length = 16
  · have hd : s.data.length = 16 := h16
    have hne : s.data.isEmpty = false := by
      cases hdata : s.data with
      | nil => rw [hdata] at hd; simp at hd
      | cons a l => simp [hdata]
    simp [isValidToken, hexPlusTest, h16, hne]
  · simp [isValidToken, h16]

/-- Concrete application of `isValidToken_spec`: a 16-hex-char token is
accepted. -/
theorem isValidToken_spec_witness :
    isValidToken (JSValue.str "0011223344556677") = true :=
  (isValidToken_spec.1 "0011223344556677").mpr (by decide)

/-! ## C1: ICE candidate buffering -/

/-- After a remote description is applied with an empty queue, further
signal messages apply ICE candidates directly, in arrival order, and the
queue stays empty. -/
theorem signalRun_from_desc (msgs : List SignalMsg) :
    ∀ st : SignalState, st.remoteDescription.isSome = true →
      st.iceCandidateQueue = [] →
      (signalRun st msgs).applied = st.applied ++ iceOf msgs ∧
      (signalRun st msgs).iceCandidateQueue = [] := by
  induction msgs with
  | nil => intro st _ hq; simpa [signalRun, iceOf] using hq
  | cons m ms ih =>
    intro st hdesc hq
    cases m with
    | offer sdp =>
      have := ih { st with remoteDescription := some sdp,
                           applied := st.applied ++ st.iceCandidateQueue,
                           iceCandidateQueue := [],
                           answersSent := st.answersSent ++ [sdp] } (by simp) rfl
      simpa [signalRun, onSignal, iceOf, hq] using this
    | answer sdp =>
      have := ih { st with remoteDescription := some sdp,
                           applied := st.applied ++ st.iceCandidateQueue,
                           iceCandidateQueue := [] } (by simp) rfl
      simpa [signalRun, onSignal, iceOf, hq] using this
    | ice cand =>
      rcases hsome : st.remoteDescription with _ | d
      · rw [hsome] at hdesc; simp at hdesc
      · have := ih { st with applied := st.applied ++ [cand] } (by simp [hsome]) hq
        simp only [signalRun, List.foldl_cons, onSignal, hsome] at this ⊢
        simpa [iceOf] using this

/-- While no remote description is set: ICE candidates accumulate in the
queue in arrival order until the first offer/answer, which applies the
whole queue and empties it; thereafter candidates apply directly. -/
theorem signalRun_from_noDesc (msgs : List SignalMsg) :
    ∀ st : SignalState, st.remoteDescription = none →
      (hasDescMsg msgs = true →
        (signalRun st msgs).applied =
          st.applied ++ st.iceCandidateQueue ++ iceOf msgs ∧
        (signalRun st msgs).iceCandidateQueue = []) ∧
      (hasDescMsg msgs = false →
        (signalRun st msgs).applied = st.applied ∧
        (signalRun st msgs).iceCandidateQueue =
          st.iceCandidateQueue ++ iceOf msgs) := by
  induction msgs with
  | nil => intro st _; simp [signalRun, hasDescMsg, iceOf]
  | cons m ms ih =>
    intro st hdesc
    cases m with
    | offer sdp =>
      have h := signalRun_from_desc ms
        { st with remoteDescription := some sdp,
                  applied := st.applied ++ st.iceCandidateQueue,
                  iceCandidateQueue := [],
                  answersSent := st.answersSent ++ [sdp] } (by simp) rfl
      constructor
      · intro _
        simpa [signalRun, onSignal, iceOf, List.append_assoc] using h
      · intro hfalse
        simp [hasDescMsg] at hfalse
    | answer sdp =>
      have h := signalRun_from_desc ms
        { st with remoteDescription := some sdp,
                  applied := st.applied ++ st.iceCandidateQueue,
                  iceCandidateQueue := [] } (by simp) rfl
      constructor
      · intro _
        simpa [signalRun, onSignal, iceOf, List.append_assoc] using h
      · intro hfalse
        simp [hasDescMsg] at hfalse
    | ice cand =>
      have h := ih { st with iceCandidateQueue := st.iceCandidateQueue ++ [cand] }
        (by simp [hdesc])
      constructor
      · intro htrue
        have htrue' : hasDescMsg ms = true := by
          simpa [hasDescMsg] using htrue
        have := h.1 htrue'
        simp only [signalRun, List.foldl_cons, onSignal, hdesc] at this ⊢
        simpa [iceOf, List.append_assoc] using this
      · intro hfalse
        have hfalse' : hasDescMsg ms = false := by
          simpa [hasDescMsg] using hfalse
        have := h.2 hfalse'
        simp only [signalRun, List.foldl_cons, onSignal, hdesc] at this ⊢
        simpa [iceOf, List.append_assoc] using this

/-- C1: starting from a fresh peer connection, every ICE candidate that
arrives while the remote description is unset is buffered; if an offer or
answer arrives, all candidates (buffered ones first, in original arrival
order) end up applied and the buffer is empty — none dropped; if no
offer/answer ever arrives, nothing is applied and the buffer holds all
candidates in arrival order. -/
theorem ice_candidates_buffered_and_flushed (msgs : List SignalMsg) :
    (hasDescMsg msgs = true →
      (signalRun initSignal msgs).applied = iceOf msgs ∧
      (signalRun initSignal msgs).iceCandidateQueue = []) ∧
    (hasDescMsg msgs = false →
      (signalRun initSignal msgs).applied = [] ∧
      (signalRun initSignal msgs).iceCandidateQueue = iceOf msgs) := by
  have h := signalRun_from_noDesc msgs initSignal rfl
  simpa [initSignal] using h

/-- Concrete application of `ice_candidates_buffered_and_flushed`: two
early candidates are flushed, in order, by a later offer. -/
theorem ice_candidates_buffered_and_flushed_witness :
    (signalRun initSignal
        [SignalMsg.ice ⟨1⟩, SignalMsg.ice ⟨2⟩, SignalMsg.offer ⟨0⟩]).applied =
      [⟨1⟩, ⟨2⟩] ∧
    (signalRun initSignal
        [SignalMsg.ice ⟨1⟩, SignalMsg.ice ⟨2⟩, SignalMsg.offer ⟨0⟩]).iceCandidateQueue =
      [] := by
  have h := (ice_candidates_buffered_and_flushed
    [SignalMsg.ice ⟨1⟩, SignalMsg.ice ⟨2⟩, SignalMsg.offer ⟨0⟩]).1 (by decide)
  exact h

/-! ## C7: disconnect after completion -/

/-- C7 (code bug): the `disconnect` handler reads the `status` captured
when `wireSocketEvents` ran (here `idle`, a fresh session), not the live
status.  So a relay disconnect with a non-client reason arriving while
the live status is `completed` still sets the status to `error`,
contradicting the claim that it stays `completed`. -/
theorem disconnect_after_completed_goes_error :
    disconnectHandler Status.idle Status.completed "transport close" =
      Status.error ∧ Status.error ≠ Status.completed := by
  exact ⟨rfl, by decide⟩

/-! ## C6: send progress reporting -/

/-- C6 (code bug): `sendFile` computes cumulative progress with the
render-captured `currentFileIndex` (0 for the whole loop), so for two
1-byte files the reported progress after the last chunk of the second
file is 50%, while the claimed formula (earlier files' sizes plus current
offset over total) gives 100%. -/
theorem sendProgress_stale_index :
    sendFilesProgressReports
        [{ name := "a", mime := "", data := [0] },
         { name := "b", mime := "", data := [0] }] 0 = [[50], [50]] ∧
    claimedProgressReports
        [{ name := "a", mime := "", data := [0] },
         { name := "b", mime := "", data := [0] }] = [[50], [100]] := by
  have h : chunks CHUNK_SIZE [0] = [[0]] := by simp [chunks, CHUNK_SIZE]
  constructor <;>
    · simp [sendFilesProgressReports, claimedProgressReports,
        fileProgressReports, partialSums, sumSizes, JSFile.size, h,
        List.enum]
      norm_num

/-! ## C3: finalization condition -/

/-- C3: with a current `FileMeta`, `storeChunk` finalizes (assembles the
buffered chunks into one blob, sets status `completed`, emits
`session-complete`) exactly when the updated byte counter reaches or
exceeds the declared size; below the declared size nothing is finalized,
the status is untouched and nothing is emitted. -/
theorem storeChunk_finalizes_iff (st : RecvState) (m : FileMeta)
    (b : List Nat) (h : st.recvMeta = some m) :
    (m.size ≤ st.recvBytes + b.length →
      (storeChunk st b).completed = st.completed ++
        [{ name := resolvedName m, mime := resolvedMime m,
           data := (st.recvChunks ++ [b]).flatten }] ∧
      (storeChunk st b).status = Status.completed ∧
      (storeChunk st b).emitted = st.emitted ++ ["session-complete"]) ∧
    (st.recvBytes + b.length < m.size →
      (storeChunk st b).completed = st.completed ∧
      (storeChunk st b).status = st.status ∧
      (storeChunk st b).emitted = st.emitted) := by
  constructor
  · intro hle
    simp [storeChunk, h, hle]
  · intro hlt
    simp [storeChunk, h, Nat.not_le.mpr hlt]

/-- Concrete application of `storeChunk_finalizes_iff`: a 2-byte file
finalizes exactly on the chunk that reaches the declared size. -/
theorem storeChunk_finalizes_iff_witness :
    (storeChunk
      { recvChunks := [[1]], recvMeta := some ⟨"f", 2, "", CHUNK_SIZE⟩,
        recvBytes := 1, recvProgress := 50, status := Status.transferring,
        completed := [], emitted := [] } [2]).completed =
      [{ name := "f", mime := "application/octet-stream", data := [1, 2] }] ∧
    (storeChunk
      { recvChunks := [], recvMeta := some ⟨"g", 5, "", CHUNK_SIZE⟩,
        recvBytes := 0, recvProgress := 0, status := Status.transferring,
        completed := [], emitted := [] } [9]).completed = [] := by
  constructor
  · have h := (storeChunk_finalizes_iff
      { recvChunks := [[1]], recvMeta := some ⟨"f", 2, "", CHUNK_SIZE⟩,
        recvBytes := 1, recvProgress := 50, status := Status.transferring,
        completed := [], emitted := [] } ⟨"f", 2, "", CHUNK_SIZE⟩ [2] rfl).1
      (by decide)
    exact h.1
  · have h := (storeChunk_finalizes_iff
      { recvChunks := [], recvMeta := some ⟨"g", 5, "", CHUNK_SIZE⟩,
        recvBytes := 0, recvProgress := 0, status := Status.transferring,
        completed := [], emitted := [] } ⟨"g", 5, "", CHUNK_SIZE⟩ [9] rfl).2
      (by decide)
    exact h.1

/-! ## C10: binary frames before any FileMeta -/

/-- C10 (counterexample): a chunk buffered before any `FileMeta` is NOT
carried into the next file's buffer — the meta handler clears the chunk
buffer and the byte counter, discarding it. -/
theorem preMeta_chunk_discarded :
    (storeChunk initRecv [7, 7, 7]).recvChunks = [[7, 7, 7]] ∧
    (recvFrame (storeChunk initRecv [7, 7, 7])
        (Frame.metaFrame ⟨"next", 3, "", CHUNK_SIZE⟩)).recvChunks = [] ∧
    (recvFrame (storeChunk initRecv [7, 7, 7])
        (Frame.metaFrame ⟨"next", 3, "", CHUNK_SIZE⟩)).recvBytes = 0 := by
  refine ⟨rfl, ?_, ?_⟩ <;> simp [recvFrame, storeChunk, initRecv]

/-- C10 (amended): with no `FileMeta` set, `storeChunk` still appends the
binary frame to the chunk buffer and adds its length to the byte counter,
and never finalizes regardless of how many bytes are buffered (no
completed file, no status change, nothing emitted); but a subsequently
received `FileMeta` clears the buffer and counter, discarding the
pre-meta chunks. -/
theorem storeChunk_preMeta (st : RecvState) (b : List Nat)
    (h : st.recvMeta = none) :
    (storeChunk st b).recvChunks = st.recvChunks ++ [b] ∧
    (storeChunk st b).recvBytes = st.recvBytes + b.length ∧
    (storeChunk st b).completed = st.completed ∧
    (storeChunk st b).status = st.status ∧
    (storeChunk st b).emitted = st.emitted ∧
    (∀ m : FileMeta, m.name ≠ "" →
      (recvFrame (storeChunk st b) (Frame.metaFrame m)).recvChunks = [] ∧
      (recvFrame (storeChunk st b) (Frame.metaFrame m)).recvBytes = 0) := by
  refine ⟨?_, ?_, ?_, ?_, ?_, ?_⟩
  · simp [storeChunk, h]
  · simp [storeChunk, h]
  · simp [storeChunk, h]
  · simp [storeChunk, h]
  · simp [storeChunk, h]
  · intro m hm
    simp [storeChunk, recvFrame, h, hm]

/-- Concrete application of `storeChunk_preMeta` at the initial receiver
state. -/
theorem storeChunk_preMeta_witness :
    (storeChunk initRecv [4, 5]).recvChunks = [[4, 5]] ∧
    (storeChunk initRecv [4, 5]).recvBytes = 2 ∧
    (storeChunk initRecv [4, 5]).completed = [] ∧
    (recvFrame (storeChunk initRecv [4, 5])
        (Frame.metaFrame ⟨"n", 9, "", CHUNK_SIZE⟩)).recvChunks = [] := by
  have h := storeChunk_preMeta initRecv [4, 5] rfl
  exact ⟨h.1, h.2.1, h.2.2.1, (h.2.2.2.2.2 ⟨"n", 9, "", CHUNK_SIZE⟩ (by decide)).1⟩

/-! ## C8: waiting watchdog -/

/-- C8: if the status has remained `waiting` when the 5-minute watchdog
fires, the handler first force-transitions the status to `error` (with a
timeout message) and then tears the session down locally: the whole call
is the state reset applied to that errored state, leaving the peer
connection and data channel released, the ICE queue cleared, and all
session state reset. -/
theorem waiting_watchdog (st : AppState) (h : st.status = Status.waiting) :
    (timeoutError st).status = Status.error ∧
    (timeoutError st).errorMsg = "Connection timeout: peer did not connect in time." ∧
    waitingTimeoutFire st = resetState (timeoutError st) ∧
    (waitingTimeoutFire st).1.pcAttached = false ∧
    (waitingTimeoutFire st).1.dcAttached = false ∧
    (waitingTimeoutFire st).1.iceCandidateQueue = [] ∧
    (waitingTimeoutFire st).1.status = Status.idle ∧
    (waitingTimeoutFire st).1.selectedFiles = [] ∧
    (waitingTimeoutFire st).1.recvMeta = none ∧
    (waitingTimeoutFire st).1.recvChunks = [] := by
  refine ⟨rfl, rfl, ?_, ?_, ?_, ?_, ?_, ?_, ?_, ?_⟩ <;>
    simp [waitingTimeoutFire, h, timeoutError, resetState, cleanupRTC]

/-- Concrete application of `waiting_watchdog` at a waiting session. -/
theorem waiting_watchdog_witness :
    (waitingTimeoutFire
      { status := Status.waiting, errorMsg := "", role := some "host",
        lastAction := "create", sendProgress := 0, recvProgress := 0,
        expiresAt := some 600, selectedFiles := [], currentFileIndex := 0,
        recvChunks := [], recvMeta := none, recvBytes := 0,
        sessionToken := "aabbccdd00112233", socketExists := true,
        pcAttached := true, dcAttached := true,
        iceCandidateQueue := [⟨3⟩] }).1.status = Status.idle ∧
    (waitingTimeoutFire
      { status := Status.waiting, errorMsg := "", role := some "host",
        lastAction := "create", sendProgress := 0, recvProgress := 0,
        expiresAt := some 600, selectedFiles := [], currentFileIndex := 0,
        recvChunks := [], recvMeta := none, recvBytes := 0,
        sessionToken := "aabbccdd00112233", socketExists := true,
        pcAttached := true, dcAttached := true,
        iceCandidateQueue := [⟨3⟩] }).1.pcAttached = false := by
  have h := waiting_watchdog
    { status := Status.waiting, errorMsg := "", role := some "host",
      lastAction := "create", sendProgress := 0, recvProgress := 0,
      expiresAt := some 600, selectedFiles := [], currentFileIndex := 0,
      recvChunks := [], recvMeta := none, recvBytes := 0,
      sessionToken := "aabbccdd00112233", socketExists := true,
      pcAttached := true, dcAttached := true,
      iceCandidateQueue := [⟨3⟩] } rfl
  exact ⟨h.2.2.2.2.2.2.1, h.2.2.2.1⟩

/-! ## C9: joinSession with an invalid token -/

/-- C9 (counterexample): when a socket from a previous session exists,
`joinSession` with a 15-character token still emits a socket message —
the `session-cancel` sent by the initial `resetState()` — so the claim
"no socket message is emitted as a result of the join" fails as stated. -/
theorem joinSession_invalid_emits_cancel :
    (joinSession
      { status := Status.completed, errorMsg := "", role := some "guest",
        lastAction := "join", sendProgress := 0, recvProgress := 0,
        expiresAt := none, selectedFiles := [], currentFileIndex := 0,
        recvChunks := [], recvMeta := none, recvBytes := 0,
        sessionToken := "aabbccdd00112233", socketExists := true,
        pcAttached := false, dcAttached := false, iceCandidateQueue := [] }
      (some "0123456789abcde")).2.1 =
      [SocketEmit.sessionCancel "aabbccdd00112233"] ∧
    [SocketEmit.sessionCancel "aabbccdd00112233"] ≠ ([] : List SocketEmit) := by
  exact ⟨by decide, by decide⟩

/-- C9 (amended): for any input whose trimmed value is not a valid
16-hex-char token, `joinSession` fails locally — error message
"Invalid token.", status `error`, no connection attempt to the relay and
no `register` message; the only possible emission is the `session-cancel`
sent by the initial state reset when a socket from a previous session
already exists. -/
theorem joinSession_invalid_local (st : AppState) (input : Option String)
    (hbad : ∀ s, input = some s → isValidToken (JSValue.str (jsTrim s)) = false) :
    (joinSession st input).1.status = Status.error ∧
    (joinSession st input).1.errorMsg = "Invalid token." ∧
    (joinSession st input).2.2 = false ∧
    (joinSession st input).2.1 =
      (if st.socketExists then [SocketEmit.sessionCancel st.sessionToken]
       else []) ∧
    (∀ t, SocketEmit.register t ∉ (joinSession st input).2.1) := by
  cases input with
  | none =>
    refine ⟨rfl, rfl, rfl, ?_, ?_⟩
    · simp [joinSession, resetState, cleanupRTC]
    · intro t
      simp [joinSession, resetState, cleanupRTC]
  | some s =>
    have hval := hbad s rfl
    refine ⟨?_, ?_, ?_, ?_, ?_⟩
    · simp [joinSession, resetState, cleanupRTC, hval]
    · simp [joinSession, resetState, cleanupRTC, hval]
    · simp [joinSession, resetState, cleanupRTC, hval]
    · simp [joinSession, resetState, cleanupRTC, hval]
    · intro t
      simp [joinSession, resetState, cleanupRTC, hval]

/-- Concrete application of `joinSession_invalid_local`: joining with a
15-character token on a fresh page (no socket yet) emits nothing and
makes no connection attempt. -/
theorem joinSession_invalid_local_witness :
    (joinSession
      { status := Status.idle, errorMsg := "", role := none,
        lastAction := "idle", sendProgress := 0, recvProgress := 0,
        expiresAt := none, selectedFiles := [], currentFileIndex := 0,
        recvChunks := [], recvMeta := none, recvBytes := 0,
        sessionToken := "", socketExists := false,
        pcAttached := false, dcAttached := false, iceCandidateQueue := [] }
      (some "0123456789abcde")).1.status = Status.error ∧
    (joinSession
      { status := Status.idle, errorMsg := "", role := none,
        lastAction := "idle", sendProgress := 0, recvProgress := 0,
        expiresAt := none, selectedFiles := [], currentFileIndex := 0,
        recvChunks := [], recvMeta := none, recvBytes := 0,
        sessionToken := "", socketExists := false,
        pcAttached := false, dcAttached := false, iceCandidateQueue := [] }
      (some "0123456789abcde")).2.1 = [] ∧
    (joinSession
      { status := Status.idle, errorMsg := "", role := none,
        lastAction := "idle", sendProgress := 0, recvProgress := 0,
        expiresAt := none, selectedFiles := [], currentFileIndex := 0,
        recvChunks := [], recvMeta := none, recvBytes := 0,
        sessionToken := "", socketExists := false,
        pcAttached := false, dcAttached := false, iceCandidateQueue := [] }
      (some "0123456789abcde")).2.2 = false := by
  have h := joinSession_invalid_local
    { status := Status.idle, errorMsg := "", role := none,
      lastAction := "idle", sendProgress := 0, recvProgress := 0,
      expiresAt := none, selectedFiles := [], currentFileIndex := 0,
      recvChunks := [], recvMeta := none, recvBytes := 0,
      sessionToken := "", socketExists := false,
      pcAttached := false, dcAttached := false, iceCandidateQueue := [] }
    (some "0123456789abcde") (fun s hs => by cases hs; decide)
  exact ⟨h.1, h.2.2.2.1, h.2.2.1⟩

/-! ## C4: flow-control backpressure -/

/-- In any flow-controlled run, if every chunk is at most `C` long, the
buffered amount observed after each send is at most the threshold plus
one chunk. -/
theorem sendRun_bounded (T C : Nat) :
    ∀ (b0 : Nat) (ls bs : List Nat), SendRun T b0 ls bs →
      (∀ l ∈ ls, l ≤ C) → ∀ x ∈ bs, x ≤ T + C := by
  intro b0 ls bs hrun
  induction hrun with
  | nil => intro _ x hx; simp at hx
  | cons b l b' ls' bs' hstep _ ih =>
    intro hls x hx
    rw [List.mem_cons] at hx
    rcases hx with hx | hx
    · subst hx
      have hl : l ≤ C := hls l (List.mem_cons_self l ls')
      cases hstep <;> omega
    · exact ih (fun l' hl' => hls l' (List.mem_cons_of_mem l hl')) x hx

/-- C4: sending a file's chunks (each at most `CHUNK_SIZE` long) under
the flow-control discipline with the threshold set at channel binding
(`4 × CHUNK_SIZE`) keeps the buffered amount after every send at most the
threshold plus one chunk. -/
theorem backpressure_holds (data : List Nat) (b0 : Nat) (bs : List Nat)
    (hrun : SendRun bufferedAmountLowThreshold b0
      ((chunks CHUNK_SIZE data).map List.length) bs) :
    ∀ x ∈ bs, x ≤ bufferedAmountLowThreshold + CHUNK_SIZE := by
  refine sendRun_bounded bufferedAmountLowThreshold CHUNK_SIZE b0 _ bs hrun ?_
  intro l hl
  rw [List.mem_map] at hl
  obtain ⟨b, hb, rfl⟩ := hl
  exact (chunks_mem_len CHUNK_SIZE (by decide) data b hb).2

/-- Concrete application of `backpressure_holds`: a one-chunk file sent
from an empty buffer. -/
theorem backpressure_holds_witness :
    (1 : Nat) ≤ bufferedAmountLowThreshold + CHUNK_SIZE := by
  have hch : (chunks CHUNK_SIZE [5]).map List.length = [1] := by
    simp [chunks, CHUNK_SIZE]
  have hrun : SendRun bufferedAmountLowThreshold 0
      ((chunks CHUNK_SIZE [5]).map List.length) [1] := by
    rw [hch]
    exact SendRun.cons 0 1 (0 + 1) [] []
      (SendStep.noWait 0 0 1 (Nat.le_refl 0) (by decide))
      (SendRun.nil (0 + 1))
  exact backpressure_holds [5] 0 [1] hrun 1 (by decide)

/-! ## C2: end-to-end transfer -/

/-- Frame processing distributes over concatenation of frame sequences. -/
theorem recvRun_append (st : RecvState) (a b : List Frame) :
    recvRun st (a ++ b) = recvRun (recvRun st a) b := by
  simp [recvRun, List.foldl_append]

/-- Receiving a nonempty sequence of nonempty binary frames whose total
length brings the byte counter exactly to the declared size finalizes
exactly one file, assembled from all buffered chunks. -/
theorem recvRun_binary_frames (bs : List (List Nat)) :
    ∀ (st : RecvState) (m : FileMeta), st.recvMeta = some m →
      bs ≠ [] → (∀ b ∈ bs, b ≠ []) →
      st.recvBytes + (bs.map List.length).sum = m.size →
      (recvRun st (bs.map Frame.binary)).completed =
        st.completed ++
          [{ name := resolvedName m, mime := resolvedMime m,
             data := (st.recvChunks ++ bs).flatten }] := by
  induction bs with
  | nil => intro st m _ hne _ _; exact absurd rfl hne
  | cons b bs ih =>
    intro st m hm _ hb hsum
    rcases bs with _ | ⟨b2, bs'⟩
    · have hfin : m.size ≤ st.recvBytes + b.length := by
        simp at hsum; omega
      simp [recvRun, recvFrame, storeChunk, hm, hfin]
    · have hb2 : b2 ≠ [] := hb b2 (by simp)
      have hb2len : 0 < b2.length := List.length_pos.mpr hb2
      have hsum' : st.recvBytes + b.length +
          ((b2 :: bs').map List.length).sum = m.size := by
        simp at hsum ⊢; omega
      have hlt : st.recvBytes + b.length < m.size := by
        simp at hsum' ⊢; omega
      have hnle := Nat.not_le.mpr hlt
      have h1 : (storeChunk st b).recvMeta = some m := by
        simp [storeChunk, hm, hnle]
      have h2 : (storeChunk st b).recvBytes = st.recvBytes + b.length := by
        simp [storeChunk, hm, hnle]
      have h3 : (storeChunk st b).completed = st.completed := by
        simp [storeChunk, hm, hnle]
      have h4 : (storeChunk st b).recvChunks = st.recvChunks ++ [b] := by
        simp [storeChunk, hm, hnle]
      have hstep := ih (storeChunk st b) m h1 (by simp)
        (fun x hx => hb x (List.mem_cons_of_mem _ hx))
        (by rw [h2]; exact hsum')
      have hrun : recvRun st ((b :: b2 :: bs').map Frame.binary) =
          recvRun (storeChunk st b) ((b2 :: bs').map Frame.binary) := by
        simp [recvRun, recvFrame]
      rw [hrun, hstep, h3, h4]
      simp [List.append_assoc]

/-- Processing one file's frames (nonempty name, at least one byte)
finalizes exactly that file, from any prior receiver state. -/
theorem recvRun_sendFileFrames (f : JSFile) (st : RecvState)
    (hname : f.name ≠ "") (hdata : f.data ≠ []) :
    (recvRun st (sendFileFrames CHUNK_SIZE f)).completed =
      st.completed ++
        [{ name := f.name, mime := resolvedMime (metaOf f),
           data := f.data }] := by
  have hcpos : (CHUNK_SIZE : Nat) ≠ 0 := by decide
  have hch : chunks CHUNK_SIZE f.data ≠ [] := by
    rw [chunks_cons CHUNK_SIZE f.data hdata hcpos]
    simp
  have hmeta : recvFrame st (Frame.metaFrame (metaOf f)) =
      { st with recvMeta := some (metaOf f), recvChunks := [],
                recvBytes := 0, recvProgress := 0,
                status := Status.transferring } := by
    simp [recvFrame, metaOf, hname]
  have hsum : (0 : Nat) +
      ((chunks CHUNK_SIZE f.data).map List.length).sum = (metaOf f).size := by
    rw [← List.length_flatten, chunks_flatten CHUNK_SIZE hcpos]
    simp [metaOf, JSFile.size]
  have hbin := recvRun_binary_frames (chunks CHUNK_SIZE f.data)
    { st with recvMeta := some (metaOf f), recvChunks := [],
              recvBytes := 0, recvProgress := 0,
              status := Status.transferring } (metaOf f) rfl hch
    (fun b hb => List.length_pos.mp
      (chunks_mem_len CHUNK_SIZE hcpos f.data b hb).1)
    hsum
  have hstep : recvRun st (sendFileFrames CHUNK_SIZE f) =
      recvRun { st with recvMeta := some (metaOf f), recvChunks := [],
                        recvBytes := 0, recvProgress := 0,
                        status := Status.transferring }
        ((chunks CHUNK_SIZE f.data).map Frame.binary) := by
    rw [sendFileFrames]
    rw [show Frame.metaFrame (metaOf f) ::
          (chunks CHUNK_SIZE f.data).map Frame.binary =
        [Frame.metaFrame (metaOf f)] ++
          (chunks CHUNK_SIZE f.data).map Frame.binary from rfl]
    rw [recvRun_append]
    simp [recvRun, hmeta]
  rw [hstep, hbin]
  have hrn : resolvedName (metaOf f) = f.name := by
    simp [resolvedName, metaOf, hname]
  rw [hrn]
  simp [chunks_flatten CHUNK_SIZE hcpos]

/-- Sending a list of files (each with a nonempty name and at least one
byte) finalizes exactly those files, in order, with exactly their bytes. -/
theorem recvRun_sendFramesAll (files : List JSFile) :
    ∀ st : RecvState,
      (∀ f ∈ files, f.name ≠ "" ∧ f.data ≠ []) →
      (recvRun st (sendFramesAll CHUNK_SIZE files)).completed =
        st.completed ++ files.map (fun f =>
          { name := f.name, mime := resolvedMime (metaOf f),
            data := f.data : CompletedFile }) := by
  induction files with
  | nil => intro st _; simp [sendFramesAll, recvRun]
  | cons f fs ih =>
    intro st hall
    have h1 := recvRun_sendFileFrames f st (hall f (by simp)).1
      (hall f (by simp)).2
    have h2 := ih (recvRun st (sendFileFrames CHUNK_SIZE f))
      (fun g hg => hall g (List.mem_cons_of_mem _ hg))
    have hsplit : sendFramesAll CHUNK_SIZE (f :: fs) =
        sendFileFrames CHUNK_SIZE f ++ sendFramesAll CHUNK_SIZE fs := by
      simp [sendFramesAll]
    rw [hsplit, recvRun_append, h2, h1]
    simp

/-- C2 (counterexample): the claim fails as stated.  A zero-byte file
produces its meta frame but no binary frame, and the receiver — which
finalizes only inside the binary-frame handler — never finalizes it; a
file whose name is the empty string (falsy) has its meta frame ignored
and is likewise never finalized.  In both runs `n = 1` but zero files
complete. -/
theorem transfer_end_to_end_cex :
    (recvRun initRecv (sendFramesAll CHUNK_SIZE
        [{ name := "a", mime := "", data := [] }])).completed.length = 0 ∧
    (recvRun initRecv (sendFramesAll CHUNK_SIZE
        [{ name := "", mime := "", data := [1] }])).completed.length = 0 := by
  constructor
  · simp [sendFramesAll, sendFileFrames, metaOf, chunks_nil, recvRun,
      recvFrame, initRecv]
  · have hch : chunks CHUNK_SIZE [1] = [[1]] := by simp [chunks, CHUNK_SIZE]
    simp [sendFramesAll, sendFileFrames, metaOf, hch, recvRun, recvFrame,
      storeChunk, initRecv]

/-- C2 (amended): for every ordered sequence of files each with a
nonempty name and at least one byte, the sender emits per file, in order,
exactly one meta frame followed by exactly `⌈size/c⌉` binary frames with
`c = CHUNK_SIZE`, all of size `c` except a possibly smaller (nonempty)
final frame, jointly carrying exactly the file's bytes; and the receiver
finalizes exactly `n` completed files whose byte lengths (indeed whose
bytes) equal those of the sent files, in order. -/
theorem transfer_end_to_end (files : List JSFile)
    (hfiles : ∀ f ∈ files, f.name ≠ "" ∧ f.data ≠ []) :
    (∀ f ∈ files,
      sendFileFrames CHUNK_SIZE f =
        Frame.metaFrame (metaOf f) ::
          (chunks CHUNK_SIZE f.data).map Frame.binary ∧
      (chunks CHUNK_SIZE f.data).length =
        (f.size + CHUNK_SIZE - 1) / CHUNK_SIZE ∧
      (∀ b ∈ (chunks CHUNK_SIZE f.data).dropLast, b.length = CHUNK_SIZE) ∧
      (∀ b ∈ chunks CHUNK_SIZE f.data,
        0 < b.length ∧ b.length ≤ CHUNK_SIZE) ∧
      (chunks CHUNK_SIZE f.data).flatten = f.data) ∧
    (recvRun initRecv (sendFramesAll CHUNK_SIZE files)).completed.length =
      files.length ∧
    (recvRun initRecv (sendFramesAll CHUNK_SIZE files)).completed.map
        (fun cf => cf.data) = files.map JSFile.data := by
  have hcpos : (CHUNK_SIZE : Nat) ≠ 0 := by decide
  have hrun := recvRun_sendFramesAll files initRecv hfiles
  refine ⟨?_, ?_, ?_⟩
  · intro f _
    exact ⟨rfl, chunks_length CHUNK_SIZE hcpos f.data,
      chunks_dropLast_len CHUNK_SIZE hcpos f.data,
      chunks_mem_len CHUNK_SIZE hcpos f.data,
      chunks_flatten CHUNK_SIZE hcpos f.data⟩
  · rw [hrun]; simp [initRecv]
  · rw [hrun]; simp [initRecv]

/-- Concrete application of `transfer_end_to_end`: a three-byte file is
sent as one meta frame plus one binary frame and received intact. -/
theorem transfer_end_to_end_witness :
    (recvRun initRecv (sendFramesAll CHUNK_SIZE
        [{ name := "a", mime := "x", data := [1, 2, 3] }])).completed.map
        (fun cf => cf.data) = [[1, 2, 3]] ∧
    (recvRun initRecv (sendFramesAll CHUNK_SIZE
        [{ name := "a", mime := "x", data := [1, 2, 3] }])).completed.length
      = 1 := by
  have h := transfer_end_to_end
    [{ name := "a", mime := "x", data := [1, 2, 3] }] (by decide)
  exact ⟨h.2.2, h.2.1⟩
